import Mathlib

/-!
Verification of the license-plate text pipeline in src/util_sl.py.

The embedding models Python strings as lists of characters.  Python
`str.upper()` is modelled character-wise via Char.toUpper, and the regex
classes [A-Z] and \d are modelled by Char.isUpper and Char.isDigit; both
agree with Python on the ASCII inputs the module is written for.

Python dictionaries become association lists looked up with List.lookup;
fallible code (a dictionary subscript that can raise KeyError) returns
Option, with none standing for the raised exception, which read_license_plate
propagates.  OCR confidences (Python floats that are only compared, never
computed with) are modelled as rationals.
-/

namespace LP

/-- Letters that can stand in for a digit (src/util_sl.py line 10). -/
def dict_char_to_int : List (Char × Char) :=
  [('O', '0'), ('I', '1'), ('J', '3'), ('A', '4'), ('G', '6'), ('S', '5')]

/-- Digits that can stand in for a letter (src/util_sl.py line 11). -/
def dict_int_to_char : List (Char × Char) :=
  [('0', 'O'), ('1', 'I'), ('3', 'J'), ('4', 'A'), ('6', 'G'), ('5', 'S')]

/-- `text.upper().replace(" ", "")` (src lines 106 and 158). -/
def upperStrip (t : List Char) : List Char :=
  (t.map Char.toUpper).filter (fun c => c != ' ')

/-- `text.upper().replace(" ", "").replace("-", "")` (src line 80). -/
def dense (t : List Char) : List Char :=
  (upperStrip t).filter (fun c => c != '-')

/-- Does `[A-Z]{2}\d{4}` match at position i of s? -/
def matchesAt (s : List Char) (i : Nat) : Bool :=
  match s.drop i with
  | a :: b :: c :: d :: e :: f :: _ =>
    a.isUpper && b.isUpper && c.isDigit && d.isDigit && e.isDigit && f.isDigit
  | _ => false

/-- `re.search(r"([A-Z]{2})(\d{4})", s)` (src line 85): the leftmost
position where two uppercase letters are immediately followed by four
digits, returning the two capture groups. -/
def searchPlate : List Char → Option (List Char × List Char)
  | [] => none
  | c :: cs =>
    if matchesAt (c :: cs) 0 then
      some ((c :: cs).take 2, ((c :: cs).drop 2).take 4)
    else searchPlate cs

/-- `extract_plate_format` (src lines 67-91). -/
def extract_plate_format (t : List Char) : Option (List Char) :=
  match searchPlate (dense t) with
  | some (letters, digits) => some (letters ++ '-' :: digits)
  | none => none

/-- Python `str.split("-")` (src lines 110 and 162). -/
def splitHyphen : List Char → List (List Char)
  | [] => [[]]
  | c :: cs =>
    if c = '-' then [] :: splitHyphen cs
    else
      match splitHyphen cs with
      | h :: t => (c :: h) :: t
      | [] => [[c]]

/-- Python `l[-2:]` on a string (src lines 115, 124, 166, 176). -/
def lastTwo (l : List Char) : List Char :=
  l.drop (l.length - 2)

/-- The maximal run of uppercase letters at the end of s. -/
def letterRunEnd (s : List Char) : List Char :=
  (s.reverse.takeWhile (fun c => c.isUpper)).reverse

/-- `re.search(r"([A-Z]+)(\d{4})$", s)` (src lines 122 and 174).  The
anchored pattern matches exactly when the string has length at least 5,
its final four characters are all digits, and the character just before
them is an uppercase letter; the leftmost-then-greedy match makes
group 1 the maximal uppercase run immediately preceding those four
digits and group 2 the four digits themselves. -/
def looseMatch (s : List Char) : Option (List Char × List Char) :=
  let pre := s.take (s.length - 4)
  let digs := s.drop (s.length - 4)
  if decide (5 ≤ s.length) && digs.all Char.isDigit && !(letterRunEnd pre).isEmpty then
    some (letterRunEnd pre, digs)
  else none

/-- The hyphen-or-no-hyphen parse of an already uppercased and
space-stripped text into (letter part, digit part).  This code is
duplicated verbatim between license_complies_format (src lines 109-127)
and format_license (src lines 161-179); none models the paths on which
both functions give up (parts not exactly two, or the loose regex
failing). -/
def parse_parts (t : List Char) : Option (List Char × List Char) :=
  if t.contains '-' then
    match splitHyphen t with
    | [p0, p1] => some ((if 2 < p0.length then lastTwo p0 else p0), p1)
    | _ => none
  else
    match looseMatch t with
    | some (run, digs) => some (lastTwo run, digs)
    | none => none

/-- `license_complies_format` (src lines 94-140). -/
def license_complies_format (t : List Char) : Bool :=
  match parse_parts (upperStrip t) with
  | some (letters, numbers) =>
    letters.length == 2 && numbers.length == 4
      && letters.all (fun l => l.isUpper || (List.lookup l dict_int_to_char).isSome)
      && numbers.all (fun n => n.isDigit || (List.lookup n dict_char_to_int).isSome)
  | none => false

/-- One character of the letter loop of format_license (src lines
183-187): `dict_int_to_char[dict_char_to_int[char]]` when char is a key
of dict_char_to_int, otherwise the character itself.  The outer
subscript is unguarded in the source, so its failure is an exception,
modelled by none. -/
def formatLetterChar (c : Char) : Option Char :=
  match List.lookup c dict_char_to_int with
  | some d => List.lookup d dict_int_to_char
  | none => some c

/-- One character of the number loop of format_license (src lines
191-197).  The first branch looks the character up in dict_char_to_int
even though it only tested membership in dict_int_to_char, so on a
digit key such as '6' the subscript raises KeyError, modelled by none. -/
def formatNumberChar (c : Char) : Option Char :=
  if (List.lookup c dict_int_to_char).isSome then
    List.lookup c dict_char_to_int
  else if (List.lookup c dict_char_to_int).isSome then
    List.lookup c dict_char_to_int
  else some c

/-- `format_license` (src lines 143-201); none models a raised
KeyError, `some t` on the unparsable paths models the source's
`return text` pass-through (src lines 171 and 179). -/
def format_license (t : List Char) : Option (List Char) :=
  match extract_plate_format t with
  | some ft => some ft
  | none =>
    let s := upperStrip t
    match parse_parts s with
    | none => some s
    | some (letters, numbers) =>
      match letters.mapM formatLetterChar, numbers.mapM formatNumberChar with
      | some fl, some fn => some (fl ++ '-' :: fn)
      | _, _ => none

/-- The per-detection loop of read_license_plate (src lines 222-246)
with the running best as an accumulator; the outer none models an
exception escaping the loop. -/
def read_plate_aux : List (List Char × ℚ) → Option (List Char) → ℚ →
    Option (Option (List Char) × Option ℚ)
  | [], bestText, bestScore =>
    match bestText with
    | some bt => if bt.isEmpty then some (none, none) else some (some bt, some bestScore)
    | none => some (none, none)
  | (text, score) :: rest, bestText, bestScore =>
    let t := text.map Char.toUpper
    match extract_plate_format t with
    | some ep => some (some ep, some score)
    | none =>
      if license_complies_format t then
        match format_license t with
        | none => none
        | some ft =>
          if bestScore < score then read_plate_aux rest (some ft) score
          else read_plate_aux rest bestText bestScore
      else read_plate_aux rest bestText bestScore

/-- `read_license_plate` (src lines 204-246) over the list of
(text, confidence) hypotheses the OCR engine produced; an empty list is
the `not result or not result[0]` case of src line 219, on which the
accumulator base case likewise yields (none, none). -/
def read_license_plate (hyps : List (List Char × ℚ)) :
    Option (Option (List Char) × Option ℚ) :=
  read_plate_aux hyps none 0

/-- The reduction policy as the spec states it, with the primary
extraction and the exception plumbing stripped away: each hypothesis
passing license_complies_format is normalized and becomes the running
best only if its confidence strictly exceeds the current best, which
starts as absent with score 0; the branch on a failing normalization is
irrelevant under the hypotheses of the refinement theorem. -/
def spec_best_aux : List (List Char × ℚ) → Option (List Char) → ℚ →
    Option (List Char) × Option ℚ
  | [], none, _ => (none, none)
  | [], some bt, bs => (some bt, some bs)
  | (text, score) :: rest, b, bs =>
    let t := text.map Char.toUpper
    if license_complies_format t then
      match format_license t with
      | some ft =>
        if bs < score then spec_best_aux rest (some ft) score
        else spec_best_aux rest b bs
      | none => spec_best_aux rest b bs
    else spec_best_aux rest b bs

/-- The running best over a hypothesis list, as the spec states it. -/
def spec_running_best (hyps : List (List Char × ℚ)) : Option (List Char) × Option ℚ :=
  spec_best_aux hyps none 0

/-- A license-plate detection box (src line 260). -/
structure LicensePlateBox where
  x1 : ℚ
  y1 : ℚ
  x2 : ℚ
  y2 : ℚ
  score : ℚ
  classId : ℚ
deriving DecidableEq

/-- A tracked vehicle box with its id (src line 264). -/
structure VehicleBox where
  x1 : ℚ
  y1 : ℚ
  x2 : ℚ
  y2 : ℚ
  carId : ℚ
deriving DecidableEq

/-- The not-found sentinel of get_car (src line 274). -/
def sentinelBox : VehicleBox :=
  ⟨-1, -1, -1, -1, -1⟩

/-- The containment test of src line 266, as the spec words it. -/
abbrev strictlyContains (v : VehicleBox) (lp : LicensePlateBox) : Prop :=
  v.x1 < lp.x1 ∧ v.y1 < lp.y1 ∧ lp.x2 < v.x2 ∧ lp.y2 < v.y2

/-- `get_car` (src lines 249-274): first vehicle box strictly
containing the plate box, else the all-minus-one sentinel. -/
def get_car (lp : LicensePlateBox) : List VehicleBox → VehicleBox
  | [] => sentinelBox
  | v :: rest =>
    if strictlyContains v lp then v else get_car lp rest

/-! Helper lemmas. -/

lemma toNat_bounds_of_isUpper (c : Char) (h : c.isUpper = true) :
    65 ≤ c.toNat ∧ c.toNat ≤ 90 := by
  unfold Char.isUpper at h
  simp only [Bool.and_eq_true, decide_eq_true_eq] at h
  exact ⟨UInt32.le_toNat_of_le (by decide) h.1, UInt32.toNat_le_of_le (by decide) h.2⟩

lemma toNat_bounds_of_isDigit (c : Char) (h : c.isDigit = true) :
    48 ≤ c.toNat ∧ c.toNat ≤ 57 := by
  unfold Char.isDigit at h
  simp only [Bool.and_eq_true, decide_eq_true_eq] at h
  exact ⟨UInt32.le_toNat_of_le (by decide) h.1, UInt32.toNat_le_of_le (by decide) h.2⟩

lemma toUpper_eq_self_of_toNat_lt (c : Char) (h : c.toNat < 97) : c.toUpper = c := by
  unfold Char.toUpper
  rw [if_neg]
  intro hc
  omega

/-- An uppercase letter or a digit survives upper-casing, space
stripping and hyphen stripping unchanged. -/
lemma keepChar (c : Char) (h : c.isUpper = true ∨ c.isDigit = true) :
    c.toUpper = c ∧ (c != ' ') = true ∧ (c != '-') = true := by
  refine ⟨?_, ?_, ?_⟩
  · apply toUpper_eq_self_of_toNat_lt
    rcases h with h | h
    · exact lt_of_le_of_lt (toNat_bounds_of_isUpper c h).2 (by omega)
    · exact lt_of_le_of_lt (toNat_bounds_of_isDigit c h).2 (by omega)
  · by_contra hne
    simp only [bne_iff_ne, ne_eq, not_not] at hne
    rw [hne] at h
    rcases h with h | h <;> exact absurd h (by decide)
  · by_contra hne
    simp only [bne_iff_ne, ne_eq, not_not] at hne
    rw [hne] at h
    rcases h with h | h <;> exact absurd h (by decide)

lemma searchPlate_first : ∀ (s : List Char) (i : Nat),
    matchesAt s i = true → (∀ j, j < i → matchesAt s j = false) →
    searchPlate s = some ((s.drop i).take 2, ((s.drop i).drop 2).take 4) := by
  intro s
  induction s with
  | nil => intro i h _; simp [matchesAt, List.drop_nil] at h
  | cons c cs ih =>
    intro i h hmin
    cases i with
    | zero =>
      unfold searchPlate
      rw [if_pos h]
      simp [List.drop_zero]
    | succ i =>
      have h0 : matchesAt (c :: cs) 0 = false := hmin 0 (Nat.succ_pos i)
      unfold searchPlate
      rw [if_neg (by rw [h0]; exact Bool.false_ne_true)]
      exact ih i h (fun j hj => hmin (j + 1) (Nat.succ_lt_succ hj))

/-- format_license on the primary-extraction path: the first position
of the dense string where two uppercase letters are followed by four
digits determines the result, with no confusion-table substitution. -/
lemma format_license_of_first_match (t : List Char) (i : Nat)
    (h : matchesAt (dense t) i = true)
    (hmin : ∀ j, j < i → matchesAt (dense t) j = false) :
    format_license t =
      some (((dense t).drop i).take 2 ++ '-' :: (((dense t).drop i).drop 2).take 4) := by
  unfold format_license extract_plate_format
  rw [searchPlate_first (dense t) i h hmin]

/-- A six-character text of two uppercase letters then four digits is
left unchanged by upper-casing and space/hyphen stripping. -/
lemma dense_canonical (a b c d e f : Char)
    (ha : a.isUpper = true) (hb : b.isUpper = true)
    (hc : c.isDigit = true) (hd : d.isDigit = true)
    (he : e.isDigit = true) (hf : f.isDigit = true) :
    dense [a, b, c, d, e, f] = [a, b, c, d, e, f] := by
  have ka := keepChar a (Or.inl ha)
  have kb := keepChar b (Or.inl hb)
  have kc := keepChar c (Or.inr hc)
  have kd := keepChar d (Or.inr hd)
  have ke := keepChar e (Or.inr he)
  have kf := keepChar f (Or.inr hf)
  simp [dense, upperStrip, ka.1, ka.2.1, ka.2.2, kb.1, kb.2.1, kb.2.2,
    kc.1, kc.2.1, kc.2.2, kd.1, kd.2.1, kd.2.2, ke.1, ke.2.1, ke.2.2,
    kf.1, kf.2.1, kf.2.2]

lemma get_car_of_none (lp : LicensePlateBox) : ∀ (vs : List VehicleBox),
    (∀ v ∈ vs, ¬ strictlyContains v lp) → get_car lp vs = sentinelBox := by
  intro vs
  induction vs with
  | nil => intro _; rfl
  | cons v rest ih =>
    intro h
    unfold get_car
    rw [if_neg (h v (List.mem_cons_self v rest))]
    exact ih (fun w hw => h w (List.mem_cons_of_mem v hw))

lemma get_car_of_first (lp : LicensePlateBox) : ∀ (vs : List VehicleBox) (i : Nat)
    (hi : i < vs.length), strictlyContains (vs.get ⟨i, hi⟩) lp →
    (∀ j (hj : j < vs.length), j < i → ¬ strictlyContains (vs.get ⟨j, hj⟩) lp) →
    get_car lp vs = vs.get ⟨i, hi⟩ := by
  intro vs
  induction vs with
  | nil => intro i hi; exact absurd hi (Nat.not_lt_zero i)
  | cons v rest ih =>
    intro i hi hcont hmin
    cases i with
    | zero =>
      have hcont' : strictlyContains v lp := hcont
      unfold get_car
      rw [if_pos hcont']
      rfl
    | succ i =>
      have h0 : ¬ strictlyContains v lp :=
        hmin 0 (Nat.succ_pos rest.length) (Nat.succ_pos i)
      unfold get_car
      rw [if_neg h0]
      exact ih i (Nat.lt_of_succ_lt_succ hi) hcont
        (fun j hj hji => hmin (j + 1) (Nat.succ_lt_succ hj) (Nat.succ_lt_succ hji))

lemma complies_parse (t : List Char) (h : license_complies_format t = true) :
    ∃ p, parse_parts (upperStrip t) = some p := by
  unfold license_complies_format at h
  cases hp : parse_parts (upperStrip t) with
  | none => rw [hp] at h; exact absurd h Bool.false_ne_true
  | some p => exact ⟨p, rfl⟩

/-- When the primary extraction has failed but the text complies with
the format, format_license either raises or produces a string of the
shape letters ++ hyphen ++ digits. -/
lemma format_shape (t : List Char) (he : extract_plate_format t = none)
    (hc : license_complies_format t = true) :
    format_license t = none ∨ ∃ L N, format_license t = some (L ++ '-' :: N) := by
  obtain ⟨⟨letters, numbers⟩, hp⟩ := complies_parse t hc
  unfold format_license
  rw [he]
  simp only [hp]
  cases h1 : letters.mapM formatLetterChar with
  | none => left; rfl
  | some fl =>
    cases h2 : numbers.mapM formatNumberChar with
    | none => left; rfl
    | some fn => right; exact ⟨fl, fn, rfl⟩

lemma append_dash_not_empty (L N : List Char) : (L ++ '-' :: N).isEmpty = false := by
  cases L <;> rfl

/-- The per-hypothesis loop refines the spec-side reduction whenever no
hypothesis matches the primary pattern and format_license raises on no
complying hypothesis. -/
lemma read_plate_aux_spec : ∀ (hyps : List (List Char × ℚ)) (b : Option (List Char)) (bs : ℚ),
    (∀ p ∈ hyps, extract_plate_format (p.1.map Char.toUpper) = none) →
    (∀ p ∈ hyps, license_complies_format (p.1.map Char.toUpper) = true →
      format_license (p.1.map Char.toUpper) ≠ none) →
    (∀ bt, b = some bt → bt.isEmpty = false) →
    read_plate_aux hyps b bs = some (spec_best_aux hyps b bs) := by
  intro hyps
  induction hyps with
  | nil =>
    intro b bs _ _ hbinv
    cases b with
    | none => rfl
    | some bt =>
      simp only [read_plate_aux, spec_best_aux, hbinv bt rfl, Bool.false_eq_true, if_false]
  | cons p rest ih =>
    obtain ⟨text, score⟩ := p
    intro b bs hext hfmt hbinv
    have he : extract_plate_format (text.map Char.toUpper) = none :=
      hext (text, score) (List.mem_cons_self _ _)
    have hext' := fun q hq => hext q (List.mem_cons_of_mem _ hq)
    have hfmt' := fun q hq => hfmt q (List.mem_cons_of_mem _ hq)
    cases hcf : license_complies_format (text.map Char.toUpper) with
    | false =>
      simp only [read_plate_aux, spec_best_aux, he, hcf, Bool.false_eq_true, if_false]
      exact ih b bs hext' hfmt' hbinv
    | true =>
      have hne := hfmt (text, score) (List.mem_cons_self _ _) hcf
      rcases format_shape (text.map Char.toUpper) he hcf with hnone | ⟨L, N, hsome⟩
      · exact absurd hnone hne
      · simp only [read_plate_aux, spec_best_aux, he, hcf, hsome, if_true]
        by_cases hlt : bs < score
        · rw [if_pos hlt, if_pos hlt]
          exact ih (some (L ++ '-' :: N)) score hext' hfmt'
            (fun bt hbt => by
              rw [(Option.some_inj.mp hbt).symm]
              exact append_dash_not_empty L N)
        · rw [if_neg hlt, if_neg hlt]
          exact ih b bs hext' hfmt' hbinv

/-- The per-hypothesis loop short-circuits at the first hypothesis
matching the primary pattern, whatever the accumulator, provided every
earlier hypothesis fails the primary pattern and raises no exception. -/
lemma read_plate_aux_primary : ∀ (pre : List (List Char × ℚ)) (t : List Char) (s : ℚ)
    (rest : List (List Char × ℚ)) (e : List Char) (b : Option (List Char)) (bs : ℚ),
    (∀ p ∈ pre, extract_plate_format (p.1.map Char.toUpper) = none) →
    (∀ p ∈ pre, license_complies_format (p.1.map Char.toUpper) = true →
      format_license (p.1.map Char.toUpper) ≠ none) →
    extract_plate_format (t.map Char.toUpper) = some e →
    read_plate_aux (pre ++ (t, s) :: rest) b bs = some (some e, some s) := by
  intro pre
  induction pre with
  | nil =>
    intro t s rest e b bs _ _ he
    rw [List.nil_append]
    simp only [read_plate_aux, he]
  | cons p pre' ih =>
    obtain ⟨text, score⟩ := p
    intro t s rest e b bs hext hfmt he
    have he0 : extract_plate_format (text.map Char.toUpper) = none :=
      hext (text, score) (List.mem_cons_self _ _)
    have hext' := fun q hq => hext q (List.mem_cons_of_mem _ hq)
    have hfmt' := fun q hq => hfmt q (List.mem_cons_of_mem _ hq)
    rw [List.cons_append]
    cases hcf : license_complies_format (text.map Char.toUpper) with
    | false =>
      simp only [read_plate_aux, he0, hcf, Bool.false_eq_true, if_false]
      exact ih t s rest e b bs hext' hfmt' he
    | true =>
      have hne := hfmt (text, score) (List.mem_cons_self _ _) hcf
      cases hf : format_license (text.map Char.toUpper) with
      | none => exact absurd hf hne
      | some ft =>
        simp only [read_plate_aux, he0, hcf, hf, if_true]
        by_cases hlt : bs < score
        · rw [if_pos hlt]
          exact ih t s rest e (some ft) score hext' hfmt' he
        · rw [if_neg hlt]
          exact ih t s rest e b bs hext' hfmt' he

/-- When no hypothesis matches the primary pattern, no exception is
raised, and every complying hypothesis has confidence 0, the loop never
replaces the initial absent best. -/
lemma read_plate_aux_zero : ∀ (hyps : List (List Char × ℚ)),
    (∀ p ∈ hyps, extract_plate_format (p.1.map Char.toUpper) = none) →
    (∀ p ∈ hyps, license_complies_format (p.1.map Char.toUpper) = true →
      format_license (p.1.map Char.toUpper) ≠ none) →
    (∀ p ∈ hyps, license_complies_format (p.1.map Char.toUpper) = true → p.2 = 0) →
    read_plate_aux hyps none 0 = some (none, none) := by
  intro hyps
  induction hyps with
  | nil => intro _ _ _; rfl
  | cons p rest ih =>
    obtain ⟨text, score⟩ := p
    intro hext hfmt hzero
    have he : extract_plate_format (text.map Char.toUpper) = none :=
      hext (text, score) (List.mem_cons_self _ _)
    have ihrec := ih (fun q hq => hext q (List.mem_cons_of_mem _ hq))
      (fun q hq => hfmt q (List.mem_cons_of_mem _ hq))
      (fun q hq => hzero q (List.mem_cons_of_mem _ hq))
    cases hcf : license_complies_format (text.map Char.toUpper) with
    | false =>
      simp only [read_plate_aux, he, hcf, Bool.false_eq_true, if_false]
      exact ihrec
    | true =>
      have hne := hfmt (text, score) (List.mem_cons_self _ _) hcf
      have hs : score = 0 := hzero (text, score) (List.mem_cons_self _ _) hcf
      cases hf : format_license (text.map Char.toUpper) with
      | none => exact absurd hf hne
      | some ft =>
        simp only [read_plate_aux, he, hcf, hf, if_true]
        rw [hs, if_neg (lt_irrefl (0 : ℚ))]
        exact ihrec

lemma list_length_six {α : Type} (t : List α) (h : t.length = 6) :
    ∃ a1 a2 a3 a4 a5 a6, t = [a1, a2, a3, a4, a5, a6] := by
  rcases t with _ | ⟨a1, t⟩
  · simp at h
  rcases t with _ | ⟨a2, t⟩
  · simp at h
  rcases t with _ | ⟨a3, t⟩
  · simp at h
  rcases t with _ | ⟨a4, t⟩
  · simp at h
  rcases t with _ | ⟨a5, t⟩
  · simp at h
  rcases t with _ | ⟨a6, t⟩
  · simp at h
  rcases t with _ | ⟨a7, t⟩
  · exact ⟨a1, a2, a3, a4, a5, a6, rfl⟩
  · simp only [List.length_cons, List.length_nil] at h
    omega

/-- A text that is literally two uppercase letters followed by four
digits is returned by format_license with a hyphen inserted and no
substitution. -/
lemma format_license_canonical (a1 a2 a3 a4 a5 a6 : Char)
    (h1 : a1.isUpper = true) (h2 : a2.isUpper = true)
    (h3 : a3.isDigit = true) (h4 : a4.isDigit = true)
    (h5 : a5.isDigit = true) (h6 : a6.isDigit = true) :
    format_license [a1, a2, a3, a4, a5, a6] =
      some ([a1, a2] ++ '-' :: [a3, a4, a5, a6]) := by
  have hdense := dense_canonical a1 a2 a3 a4 a5 a6 h1 h2 h3 h4 h5 h6
  have hm : matchesAt (dense [a1, a2, a3, a4, a5, a6]) 0 = true := by
    rw [hdense]
    simp [matchesAt, h1, h2, h3, h4, h5, h6]
  have hr := format_license_of_first_match [a1, a2, a3, a4, a5, a6] 0 hm
    (fun j hj => absurd hj (Nat.not_lt_zero j))
  rw [hdense] at hr
  exact hr

/-! Theorems settling the claims. -/

/-- C3: for every input text, after uppercasing and deleting spaces and
hyphens, if the dense string has a position where exactly two uppercase
letters are immediately followed by exactly four digits, then normalize
(format_license) returns letters-digits built from the first such
match, with no confusion-table substitution applied; in particular any
six-character text already matching two uppercase letters followed by
four digits comes back with just a hyphen inserted after the letters. -/
theorem c3_primary_first_match :
    (∀ (t : List Char) (i : Nat), matchesAt (dense t) i = true →
      (∀ j, j < i → matchesAt (dense t) j = false) →
      format_license t =
        some (((dense t).drop i).take 2 ++ '-' :: (((dense t).drop i).drop 2).take 4)) ∧
    (∀ t : List Char, t.length = 6 → matchesAt t 0 = true →
      format_license t = some (t.take 2 ++ '-' :: t.drop 2)) := by
  constructor
  · exact format_license_of_first_match
  · intro t hlen hm
    obtain ⟨a1, a2, a3, a4, a5, a6, rfl⟩ := list_length_six t hlen
    simp only [matchesAt, List.drop_zero, Bool.and_eq_true] at hm
    obtain ⟨⟨⟨⟨⟨h1, h2⟩, h3⟩, h4⟩, h5⟩, h6⟩ := hm
    exact format_license_canonical a1 a2 a3 a4 a5 a6 h1 h2 h3 h4 h5 h6

/-- Witness for C3: both conjuncts applied at concrete inputs; the
first match of the dense form of "NWKF7617" is at position 2, skipping
the province prefix, and "XY5678" is already canonical. -/
theorem c3_primary_first_match_witness :
    format_license ("NWKF7617".toList) = some ("KF-7617".toList) ∧
    format_license ("XY5678".toList) = some ("XY-5678".toList) :=
  ⟨(c3_primary_first_match.1 ("NWKF7617".toList) 2 (by decide) (by decide)).trans (by decide),
   (c3_primary_first_match.2 ("XY5678".toList) (by decide) (by decide)).trans (by decide)⟩

/-- C4 (amended): hypotheses are scanned in order, and the first
hypothesis whose text matches the primary-extraction pattern is
returned immediately with its own confidence, without examining later
hypotheses or comparing confidences - provided no earlier hypothesis
both passes license_complies_format and raises the KeyError of
format_license, which would abort the scan instead. -/
theorem c4_first_primary_short_circuit (pre : List (List Char × ℚ)) (t : List Char) (s : ℚ)
    (rest : List (List Char × ℚ)) (e : List Char)
    (h1 : ∀ p ∈ pre, extract_plate_format (p.1.map Char.toUpper) = none)
    (h2 : ∀ p ∈ pre, license_complies_format (p.1.map Char.toUpper) = true →
      format_license (p.1.map Char.toUpper) ≠ none)
    (h3 : extract_plate_format (t.map Char.toUpper) = some e) :
    read_license_plate (pre ++ (t, s) :: rest) = some (some e, some s) :=
  read_plate_aux_primary pre t s rest e none 0 h1 h2 h3

/-- Witness for C4: the second hypothesis is the first primary match
and is returned with its own confidence 9/10; the hypothesis after it
is never examined even though it also matches the primary pattern. -/
theorem c4_first_primary_short_circuit_witness :
    read_license_plate [(("KF-O827").toList, mkRat 1 2), (("AB1234").toList, mkRat 9 10),
      (("ZZ9999").toList, 1)] = some (some ("AB-1234".toList), some (mkRat 9 10)) :=
  c4_first_primary_short_circuit [(("KF-O827").toList, mkRat 1 2)] ("AB1234".toList)
    (mkRat 9 10) [(("ZZ9999").toList, 1)] ("AB-1234".toList)
    (by decide) (by decide) (by decide)

/-- C4 counterexample: as stated the claim is false, because an earlier
complying hypothesis can raise the KeyError of format_license, so the
primary-matching hypothesis "AB1234" is never reached; the code raises
instead of returning ("AB-1234", 9/10). -/
theorem c4_counterexample :
    read_license_plate [(("PQ-O317").toList, mkRat 2 5), (("AB1234").toList, mkRat 9 10)] =
      none := by decide

/-- C5 (amended): when no hypothesis matches the primary pattern and
format_license raises on no complying hypothesis, read_license_plate
returns exactly the spec's running-best reduction: each complying
hypothesis is normalized and becomes the running best only if its
confidence strictly exceeds the current best (ties keep the earlier
one), the running best is returned after the scan, and (absent, absent)
results when no hypothesis qualified, including on the empty list. -/
theorem c5_running_best (hyps : List (List Char × ℚ))
    (h1 : ∀ p ∈ hyps, extract_plate_format (p.1.map Char.toUpper) = none)
    (h2 : ∀ p ∈ hyps, license_complies_format (p.1.map Char.toUpper) = true →
      format_license (p.1.map Char.toUpper) ≠ none) :
    read_license_plate hyps = some (spec_running_best hyps) :=
  read_plate_aux_spec hyps none 0 h1 h2 (fun _ h => nomatch h)

/-- Witness for C5: two complying hypotheses, neither matching the
primary pattern; the later one wins because 7/10 strictly exceeds
3/10, and its normalized text maps S to 5. -/
theorem c5_running_best_witness :
    read_license_plate [(("JK-O927").toList, mkRat 3 10), (("JK-S927").toList, mkRat 7 10)] =
      some (some ("JK-5927".toList), some (mkRat 7 10)) :=
  (c5_running_best [(("JK-O927").toList, mkRat 3 10), (("JK-S927").toList, mkRat 7 10)]
    (by decide) (by decide)).trans (by decide)

/-- C5 counterexample: a single complying hypothesis that matches no
primary pattern makes format_license raise its KeyError (the digit '4'
is a key of the char-to-letter table but not of the char-to-int table),
so the scan aborts instead of returning the normalized running best. -/
theorem c5_counterexample :
    read_license_plate [(("JK-O417").toList, mkRat 2 5)] = none := by decide

/-- C6: get_car returns the first vehicle box in list order that
satisfies all four strict inequalities against the plate box, returns
the all-minus-one sentinel when no box satisfies them, and a plate box
that merely touches a vehicle box edge (vehicle (0,0,20,20), plate
(0,0,10,10)) is not contained. -/
theorem c6_first_container :
    (∀ (lp : LicensePlateBox) (vs : List VehicleBox),
      (∀ v ∈ vs, ¬ strictlyContains v lp) → get_car lp vs = sentinelBox) ∧
    (∀ (lp : LicensePlateBox) (vs : List VehicleBox) (i : Nat) (hi : i < vs.length),
      strictlyContains (vs.get ⟨i, hi⟩) lp →
      (∀ j (hj : j < vs.length), j < i → ¬ strictlyContains (vs.get ⟨j, hj⟩) lp) →
      get_car lp vs = vs.get ⟨i, hi⟩) ∧
    get_car ⟨0, 0, 10, 10, 1, 0⟩ [⟨0, 0, 20, 20, 1⟩] = sentinelBox :=
  ⟨get_car_of_none, get_car_of_first, by decide⟩

/-- Witness for C6: the first strictly containing box wins even though
the second is a tighter fit, and a separated box yields the sentinel. -/
theorem c6_first_container_witness :
    get_car ⟨10, 10, 20, 20, 1, 0⟩ [⟨0, 0, 30, 30, 1⟩, ⟨5, 5, 25, 25, 2⟩] =
      ⟨0, 0, 30, 30, 1⟩ ∧
    get_car ⟨0, 0, 10, 10, 1, 0⟩ [⟨12, 12, 40, 40, 3⟩] = sentinelBox :=
  ⟨c6_first_container.2.1 ⟨10, 10, 20, 20, 1, 0⟩ [⟨0, 0, 30, 30, 1⟩, ⟨5, 5, 25, 25, 2⟩]
      0 (by decide) (by decide)
      (fun j _ hj0 => absurd hj0 (Nat.not_lt_zero j)),
   c6_first_container.1 ⟨0, 0, 10, 10, 1, 0⟩ [⟨12, 12, 40, 40, 3⟩] (by decide)⟩

/-- C7 (amended): when the primary extraction fails and the fallback
parse also fails, format_license returns the uppercased, space-stripped
input text - which is the original text whenever the input has no
lowercase letters and no spaces - rather than an absent value. -/
theorem c7_pass_through (t : List Char)
    (h1 : extract_plate_format t = none)
    (h2 : parse_parts (upperStrip t) = none) :
    format_license t = some (upperStrip t) := by
  simp only [format_license, h1, h2]

/-- Witness for C7: normalize("ABCD") = "ABCD", the spec's example. -/
theorem c7_pass_through_witness :
    format_license ("ABCD".toList) = some ("ABCD".toList) :=
  (c7_pass_through ("ABCD".toList) (by decide) (by decide)).trans (by decide)

/-- C7 counterexample: the pass-through is not the original input text;
the source returns the text after upper() and space removal (src line
158), so "abcd" comes back as "ABCD". -/
theorem c7_counterexample :
    format_license ("abcd".toList) = some ("ABCD".toList) ∧
    ("ABCD".toList) ≠ ("abcd".toList) := by decide

/-- C9: the two confusion tables have no duplicate keys, every entry of
the char-to-int table round-trips through the int-to-char table, and
symmetrically every entry of the int-to-char table round-trips through
the char-to-int table (the 6 pairs O/0, I/1, J/3, A/4, G/6, S/5). -/
theorem c9_confusion_round_trip :
    (dict_char_to_int.all
      (fun p => List.lookup p.2 dict_int_to_char == some p.1)) = true ∧
    (dict_int_to_char.all
      (fun p => List.lookup p.2 dict_char_to_int == some p.1)) = true ∧
    (dict_char_to_int.map Prod.fst).Nodup ∧
    (dict_int_to_char.map Prod.fst).Nodup := by decide

/-- C10 (amended): when no hypothesis matches the primary pattern,
format_license raises on no complying hypothesis, and every complying
hypothesis has confidence exactly 0, read_license_plate returns
(absent, absent) even though qualifying candidates exist, because the
running best score starts at 0 and only a strictly greater confidence
replaces it. -/
theorem c10_zero_confidence (hyps : List (List Char × ℚ))
    (h1 : ∀ p ∈ hyps, extract_plate_format (p.1.map Char.toUpper) = none)
    (h2 : ∀ p ∈ hyps, license_complies_format (p.1.map Char.toUpper) = true →
      format_license (p.1.map Char.toUpper) ≠ none)
    (h3 : ∀ p ∈ hyps, license_complies_format (p.1.map Char.toUpper) = true → p.2 = 0) :
    read_license_plate hyps = some (none, none) :=
  read_plate_aux_zero hyps h1 h2 h3

/-- Witness for C10: a complying, crash-free hypothesis with
confidence 0 never becomes the running best. -/
theorem c10_zero_confidence_witness :
    read_license_plate [(("GH-O227").toList, 0)] = some (none, none) :=
  c10_zero_confidence [(("GH-O227").toList, 0)] (by decide) (by decide) (by decide)

/-- C10 counterexample: as stated the claim is false, because the
formatted text is computed before the score comparison, so a complying
confidence-0 hypothesis whose digit part holds the digit '5' raises the
KeyError instead of being ignored. -/
theorem c10_counterexample :
    read_license_plate [(("MN-O517").toList, 0)] = none := by decide

/-- C1: the code does not replace a digit-candidate character that is a
key of the char-to-letter table by its digit form; it looks the
character up in the char-to-int table, whose keys are letters, so
normalize("KF-O617") raises a KeyError on '6' (modelled none) instead
of returning "KF-0617" as the claim and the spec's example state. -/
theorem c1_key_error_eval : format_license ("KF-O617".toList) = none := by decide

/-- C2: format_license is not exception-free: it raises a KeyError on
"12-34" (at the digit '3'), and the exception propagates out of
read_license_plate when a complying hypothesis such as "0I-1234"
reaches the formatting step. -/
theorem c2_key_error_eval :
    format_license ("12-34".toList) = none ∧
    read_license_plate [(("0I-1234").toList, 1)] = none := by decide

/-- C8: the letter-position invariant fails: the letter loop of
format_license composes the two tables, which is the identity, so the
digit '0' accepted at a letter position by license_complies_format is
returned unchanged, and read_license_plate emits "0I-2789", whose first
two characters are not both uppercase letters. -/
theorem c8_letter_position_eval :
    read_license_plate [(("0I-2789").toList, mkRat 1 2)] =
      some (some ("0I-2789".toList), some (mkRat 1 2)) ∧
    (("0I-2789".toList).take 2).all Char.isUpper = false := by decide

end LP
